import Mathlib

/-!
Verification of the streaming-session lifecycle manager and the
multi-channel fan-out engine of the mtg-translate repository, as a
shallow embedding of `src/transcription.py`, `src/master.py`,
`src/networking.py` and `src/slave.py`.
-/

namespace MTG

/-! ## Transcription session generator (`src/transcription.py`)

The audio queue holds either resampled audio frames (byte strings,
modelled as lists of byte values) or the distinguished restart
sentinel (`self._restart_signal`).  Per the design notes, the
poison-pill string is modelled as a tagged variant. -/

inductive QItem where
  | frame (data : List Nat)
  | restartSentinel
deriving DecidableEq, Repr

/-- Loop-local state of `audio_requests_generator` inside
`TranscriptionEngine.transcribe_loop`: `startTime` is the enclosing
loop's `start_time`, `lastAudio` is `self.last_audio_received_time`,
`lastGoogle` is `self.last_google_response_time`, and `isPaused` is
`self.is_paused`.  Wall-clock times are integers (seconds). -/
structure GenState where
  startTime : Int
  lastAudio : Int
  lastGoogle : Int
  isPaused : Bool
deriving DecidableEq, Repr

/-- Outcome of one iteration of the generator's inner `while` loop:
the generator `return`s (terminates), yields one audio request, or
continues to the next iteration without yielding. -/
inductive StepResult where
  | terminated
  | yielded (chunk : List Nat)
  | continued
deriving DecidableEq, Repr

/-- `self.STREAM_LIMIT` from `TranscriptionEngine.__init__`. -/
def STREAM_LIMIT : Int := 290

/-- The `try: chunk = self.audio_queue.get(timeout=1) ... except
queue.Empty` block of `audio_requests_generator`: an empty queue
models `queue.Empty`; a dequeued chunk updates
`last_audio_received_time`, is checked against the poison pill, and
is withheld (with `last_google_response_time` refreshed to the
re-read clock `now2`) while paused, else yielded. -/
def genDequeue (s : GenState) (now now2 : Int) :
    List QItem → StepResult × GenState × List QItem
  | [] =>
    if now - s.lastAudio > 5 then
      (.continued, { s with lastAudio := now }, [])
    else (.continued, s, [])
  | QItem.restartSentinel :: rest =>
    (.terminated, { s with lastAudio := now }, rest)
  | QItem.frame d :: rest =>
    if s.isPaused then
      (.continued, { s with lastAudio := now, lastGoogle := now2 }, rest)
    else (.yielded d, { s with lastAudio := now }, rest)

/-- One iteration of the generator loop body of
`audio_requests_generator`, at wall clock `now` (the `time.time()`
read at the loop head); `now2` is the re-read clock used on the
paused path.  `stop` is `self.stop_event.is_set()` at the loop head.
The queue is the current contents of `self.audio_queue`.  Returns the
step outcome, the updated state, and the remaining queue. -/
def genStep (stop : Bool) (s : GenState) (now now2 : Int)
    (q : List QItem) : StepResult × GenState × List QItem :=
  if stop then (.terminated, s, q)
  else if now - s.startTime ≥ STREAM_LIMIT then (.terminated, s, q)
  else if now - s.lastAudio < 2 ∧ now - s.lastGoogle > 10 then
    (.terminated, s, q)
  else genDequeue s now now2 q

/-- Run the generator loop over a schedule of iterations, each giving
the stop-flag reading and the two clock reads for that iteration.
Returns the list of audio chunks yielded to the remote service, the
final state and the leftover queue. -/
def genRun (s : GenState) (sched : List (Bool × Int × Int))
    (q : List QItem) : List (List Nat) × GenState × List QItem :=
  match sched with
  | [] => ([], s, q)
  | (stop, now, now2) :: ts =>
    match genStep stop s now now2 q with
    | (.terminated, s1, q1) => ([], s1, q1)
    | (.yielded c, s1, q1) =>
      let r := genRun s1 ts q1
      (c :: r.1, r.2)
    | (.continued, s1, q1) => genRun s1 ts q1

/-- The frames of the queue that precede its first restart sentinel:
exactly the frames that belong to the current session. -/
def framesBefore : List QItem → List (List Nat)
  | [] => []
  | QItem.restartSentinel :: _ => []
  | QItem.frame d :: rest => d :: framesBefore rest

/-- `TranscriptionEngine.restart_signal` drains the queue with
`get_nowait` until empty. -/
def drainQueue : List QItem → List QItem
  | [] => []
  | _ :: rest => drainQueue rest

/-- `TranscriptionEngine.restart_signal`: drain the audio queue, then
enqueue the restart sentinel. -/
def restartSignal (q : List QItem) : List QItem :=
  drainQueue q ++ [QItem.restartSentinel]

/-- `self.is_paused = True` in `TranscriptionEngine.__init__`:
the engine starts paused (SLEEP mode). -/
def initialIsPaused : Bool := true

/-- The outer `while not self.stop_event.is_set()` loop of
`transcribe_loop`, abstracted over the per-iteration stop reading and
clock: each non-stopped iteration creates exactly one new session,
whose fresh `start_time` is that iteration's clock.  Returns the
start times of the sessions created. -/
def outerSessions : List (Bool × Int) → List Int
  | [] => []
  | (stop, now) :: rest => if stop then [] else now :: outerSessions rest

/-! ### Helper lemmas about the generator -/

lemma genDequeue_isPaused (s : GenState) (now now2 : Int)
    (q : List QItem) : (genDequeue s now now2 q).2.1.isPaused = s.isPaused := by
  cases q with
  | nil => simp only [genDequeue]; split <;> rfl
  | cons c rest =>
    cases c with
    | restartSentinel => rfl
    | frame d => simp only [genDequeue]; split <;> rfl

lemma genStep_isPaused (stop : Bool) (s : GenState) (now now2 : Int)
    (q : List QItem) : (genStep stop s now now2 q).2.1.isPaused = s.isPaused := by
  unfold genStep
  split
  · rfl
  split
  · rfl
  split
  · rfl
  exact genDequeue_isPaused s now now2 q

/-- A generator step can only yield while unpaused. -/
lemma genStep_yielded_notPaused (stop : Bool) (s : GenState)
    (now now2 : Int) (q : List QItem) (d : List Nat) (s1 : GenState)
    (q1 : List QItem)
    (h : genStep stop s now now2 q = (.yielded d, s1, q1)) :
    s.isPaused = false := by
  unfold genStep at h
  split at h
  · exact absurd h (by simp)
  split at h
  · exact absurd h (by simp)
  split at h
  · exact absurd h (by simp)
  cases q with
  | nil =>
    simp only [genDequeue] at h
    split at h <;> exact absurd h (by simp)
  | cons c rest =>
    cases c with
    | restartSentinel => exact absurd h (by simp [genDequeue])
    | frame d2 =>
      simp only [genDequeue] at h
      split at h
      · exact absurd h (by simp)
      · rename_i hcond
        simpa using hcond

/-- Case analysis on one generator step: it either terminates leaving
the queue intact or having consumed a sentinel head, or continues
with the queue intact (empty) or having consumed a frame head, or
yields the frame at the head. -/
lemma genStep_cases (stop : Bool) (s : GenState) (now now2 : Int)
    (q : List QItem) :
    (∃ s1, genStep stop s now now2 q = (.terminated, s1, q)) ∨
    (∃ s1 rest, q = QItem.restartSentinel :: rest ∧
      genStep stop s now now2 q = (.terminated, s1, rest)) ∨
    (∃ s1, q = [] ∧ genStep stop s now now2 q = (.continued, s1, [])) ∨
    (∃ s1 d rest, q = QItem.frame d :: rest ∧
      genStep stop s now now2 q = (.continued, s1, rest)) ∨
    (∃ s1 d rest, q = QItem.frame d :: rest ∧
      genStep stop s now now2 q = (.yielded d, s1, rest)) := by
  unfold genStep
  split
  · exact Or.inl ⟨s, rfl⟩
  split
  · exact Or.inl ⟨s, rfl⟩
  split
  · exact Or.inl ⟨s, rfl⟩
  cases q with
  | nil =>
    refine Or.inr (Or.inr (Or.inl ?_))
    simp only [genDequeue]
    split
    · exact ⟨_, trivial, rfl⟩
    · exact ⟨s, trivial, rfl⟩
  | cons c rest =>
    cases c with
    | restartSentinel =>
      exact Or.inr (Or.inl ⟨_, rest, rfl, rfl⟩)
    | frame d =>
      simp only [genDequeue]
      split
      · exact Or.inr (Or.inr (Or.inr (Or.inl ⟨_, d, rest, rfl, rfl⟩)))
      · exact Or.inr (Or.inr (Or.inr (Or.inr ⟨_, d, rest, rfl, rfl⟩)))

/-- The chunks a generator run yields form a sublist of the frames
that precede the first restart sentinel in the queue. -/
lemma genRun_yields_sublist (sched : List (Bool × Int × Int)) :
    ∀ (s : GenState) (q : List QItem),
      List.Sublist (genRun s sched q).1 (framesBefore q) := by
  induction sched with
  | nil => intro s q; exact List.nil_sublist _
  | cons t ts ih =>
    intro s q
    obtain ⟨stop, now, now2⟩ := t
    rcases genStep_cases stop s now now2 q with
      ⟨s1, h⟩ | ⟨s1, rest, hq, h⟩ | ⟨s1, hq, h⟩ |
      ⟨s1, d, rest, hq, h⟩ | ⟨s1, d, rest, hq, h⟩
    · simp only [genRun, h]
      exact List.nil_sublist _
    · simp only [genRun, h]
      exact List.nil_sublist _
    · subst hq
      simp only [genRun, h]
      exact ih s1 []
    · subst hq
      simp only [genRun, h, framesBefore]
      exact List.Sublist.cons d (ih s1 rest)
    · subst hq
      simp only [genRun, h, framesBefore]
      exact List.Sublist.cons₂ d (ih s1 rest)

/-- While paused, a generator run yields nothing. -/
lemma genRun_paused_no_yield (sched : List (Bool × Int × Int)) :
    ∀ (s : GenState) (q : List QItem), s.isPaused = true →
      (genRun s sched q).1 = [] := by
  induction sched with
  | nil => intro s q _; rfl
  | cons t ts ih =>
    intro s q hp
    obtain ⟨stop, now, now2⟩ := t
    have hip : (genStep stop s now now2 q).2.1.isPaused = true := by
      rw [genStep_isPaused]; exact hp
    rcases genStep_cases stop s now now2 q with
      ⟨s1, h⟩ | ⟨s1, rest, hq, h⟩ | ⟨s1, hq, h⟩ |
      ⟨s1, d, rest, hq, h⟩ | ⟨s1, d, rest, hq, h⟩
    · simp only [genRun, h]
    · simp only [genRun, h]
    · subst hq
      simp only [genRun, h]
      exact ih s1 [] (by rw [h] at hip; exact hip)
    · subst hq
      simp only [genRun, h]
      exact ih s1 rest (by rw [h] at hip; exact hip)
    · exact absurd hp (by
        rw [genStep_yielded_notPaused stop s now now2 _ d s1 rest h]
        simp)

lemma drainQueue_eq_nil (q : List QItem) : drainQueue q = [] := by
  induction q with
  | nil => rfl
  | cons c rest ih => simpa [drainQueue] using ih

/-! ## Claim theorems about the session generator -/

/-- Claim C2: while the paused flag is true, a dequeued audio frame
is not yielded to the remote transcription service, the frame is
still removed from the queue, and both the last-frame-received and
last-response-received timestamps are updated to the current clock
reads; consequently a whole run of the generator while paused yields
no audio request at all. -/
theorem paused_withholds_but_drains (s : GenState) (now now2 : Int)
    (d : List Nat) (rest : List QItem)
    (hp : s.isPaused = true)
    (hexp : now - s.startTime < STREAM_LIMIT)
    (hstall : ¬(now - s.lastAudio < 2 ∧ now - s.lastGoogle > 10)) :
    genStep false s now now2 (QItem.frame d :: rest) =
      (StepResult.continued,
        { s with lastAudio := now, lastGoogle := now2 }, rest)
    ∧ ∀ (sched : List (Bool × Int × Int)) (q : List QItem),
        (genRun s sched q).1 = [] := by
  constructor
  · unfold genStep
    rw [if_neg (by simp), if_neg (not_le.mpr hexp), if_neg hstall]
    simp only [genDequeue]
    rw [if_pos hp]
  · intro sched q
    exact genRun_paused_no_yield sched s q hp

/-- Witness for C2 at a concrete paused state and frame. -/
theorem paused_withholds_but_drains_witness :
    genStep false ⟨0, 0, 0, true⟩ 1 1 [QItem.frame [7], QItem.frame [8]] =
      (StepResult.continued, ⟨0, 1, 1, true⟩, [QItem.frame [8]]) :=
  (paused_withholds_but_drains ⟨0, 0, 0, true⟩ 1 1 [7] [QItem.frame [8]]
    (by decide) (by decide) (by decide)).1

/-- Claim C5: dequeuing the restart sentinel terminates the generator
immediately without yielding, leaving everything enqueued after the
sentinel in the queue for the next session; moreover anything a run
yields is among the frames preceding the first sentinel, so no frame
enqueued after the sentinel is ever yielded to the ending session. -/
theorem sentinel_terminates_generator (s : GenState) (now now2 : Int)
    (post : List QItem)
    (hexp : now - s.startTime < STREAM_LIMIT)
    (hstall : ¬(now - s.lastAudio < 2 ∧ now - s.lastGoogle > 10)) :
    genStep false s now now2 (QItem.restartSentinel :: post) =
      (StepResult.terminated, { s with lastAudio := now }, post)
    ∧ ∀ (sched : List (Bool × Int × Int)) (q : List QItem),
        List.Sublist (genRun s sched q).1 (framesBefore q) := by
  constructor
  · unfold genStep
    rw [if_neg (by simp), if_neg (not_le.mpr hexp), if_neg hstall]
    rfl
  · intro sched q
    exact genRun_yields_sublist sched s q

/-- Witness for C5: a sentinel at the head with a frame queued after
it terminates the step and leaves that frame queued. -/
theorem sentinel_terminates_generator_witness :
    genStep false ⟨0, 0, 0, false⟩ 1 1
        [QItem.restartSentinel, QItem.frame [9]] =
      (StepResult.terminated, ⟨0, 1, 0, false⟩, [QItem.frame [9]]) :=
  (sentinel_terminates_generator ⟨0, 0, 0, false⟩ 1 1 [QItem.frame [9]]
    (by decide) (by decide)).1

/-- Claim C6: once `now - start_time` reaches the 290-second stream
limit the generator terminates at its loop-head check, and each outer
loop iteration with the stop flag unset creates exactly one new
session with a fresh start time (none once the stop flag is set). -/
theorem expiry_terminates_then_one_fresh_session (s : GenState)
    (now now2 : Int) (q : List QItem)
    (h : now - s.startTime ≥ STREAM_LIMIT) :
    genStep false s now now2 q = (StepResult.terminated, s, q)
    ∧ (∀ (t : Int) (its : List (Bool × Int)),
        outerSessions ((false, t) :: its) = t :: outerSessions its)
    ∧ (∀ (t : Int) (its : List (Bool × Int)),
        outerSessions ((true, t) :: its) = []) := by
  refine ⟨?_, ?_, ?_⟩
  · unfold genStep
    rw [if_neg (by simp), if_pos h]
  · intro t its; rfl
  · intro t its; rfl

/-- Witness for C6 at a session exactly 290 seconds old. -/
theorem expiry_terminates_then_one_fresh_session_witness :
    genStep false ⟨0, 289, 289, false⟩ 290 290 [QItem.frame [1]] =
      (StepResult.terminated, ⟨0, 289, 289, false⟩, [QItem.frame [1]]) :=
  (expiry_terminates_then_one_fresh_session ⟨0, 289, 289, false⟩ 290 290
    [QItem.frame [1]] (by decide)).1

/-- Claim C7: if at the loop head frames arrived less than 2 seconds
ago but no remote response for more than 10 seconds, the generator
terminates in that iteration; whereas an empty queue with no frame
for more than 5 seconds only logs, refreshes the frame timestamp and
continues without terminating. -/
theorem stall_terminates_idle_waits (s : GenState) (now now2 : Int)
    (q : List QItem)
    (h1 : now - s.lastAudio < 2) (h2 : now - s.lastGoogle > 10) :
    (genStep false s now now2 q).1 = StepResult.terminated
    ∧ ∀ (n n2 : Int), n - s.startTime < STREAM_LIMIT →
        n - s.lastAudio > 5 →
        genStep false s n n2 [] =
          (StepResult.continued, { s with lastAudio := n }, []) := by
  constructor
  · unfold genStep
    rw [if_neg (by simp)]
    by_cases hexp : now - s.startTime ≥ STREAM_LIMIT
    · rw [if_pos hexp]
    · rw [if_neg hexp, if_pos ⟨h1, h2⟩]
  · intro n n2 hexp hidle
    unfold genStep
    rw [if_neg (by simp), if_neg (not_le.mpr hexp),
        if_neg (by rintro ⟨a, _⟩; omega)]
    simp only [genDequeue]
    rw [if_pos hidle]

/-- Witness for C7: frame age 1s and response age 11s terminates; a
6-second idle wait at the same state merely continues. -/
theorem stall_terminates_idle_waits_witness :
    (genStep false ⟨0, 10, 0, false⟩ 11 11 [QItem.frame [1]]).1 =
      StepResult.terminated
    ∧ genStep false ⟨0, 10, 0, false⟩ 16 16 [] =
      (StepResult.continued, ⟨0, 16, 0, false⟩, []) :=
  ⟨(stall_terminates_idle_waits ⟨0, 10, 0, false⟩ 11 11 [QItem.frame [1]]
      (by decide) (by decide)).1,
   (stall_terminates_idle_waits ⟨0, 10, 0, false⟩ 11 11 [QItem.frame [1]]
      (by decide) (by decide)).2 16 16 (by decide) (by decide)⟩

/-- Claim C10: `restart_signal` drains every queued frame before
enqueuing the restart sentinel, so the sentinel is the sole element
left in the queue, and no previously queued frame can ever be yielded
by the generator afterwards. -/
theorem restart_signal_drains_then_sentinel (q : List QItem) :
    restartSignal q = [QItem.restartSentinel]
    ∧ ∀ (s : GenState) (sched : List (Bool × Int × Int)),
        (genRun s sched (restartSignal q)).1 = [] := by
  have h1 : restartSignal q = [QItem.restartSentinel] := by
    simp [restartSignal, drainQueue_eq_nil]
  refine ⟨h1, ?_⟩
  intro s sched
  rw [h1]
  have hs := genRun_yields_sublist sched s [QItem.restartSentinel]
  simp only [framesBefore] at hs
  exact List.sublist_nil.mp hs

/-! ## Fan-out engine (`src/master.py`)

`MasterTranslationEngine.process_and_broadcast_single_lang` receives
one utterance and one destination language; `port_server.clients` is
that language's TCP channel subscriber set and
`network_server.clients` the WebSocket broadcast channel subscriber
set.  We record which external calls the function performs. -/

structure LangOutcome where
  translateCalled : Bool
  remoteTranslateCalled : Bool
  webBroadcast : Bool
  ttsCalled : Bool
  portBroadcast : Bool
deriving DecidableEq, Repr

/-- The all-false outcome: the language was skipped entirely. -/
def noOutcome : LangOutcome :=
  ⟨false, false, false, false, false⟩

/-- `process_and_broadcast_single_lang` on the success path:
`portServerExists` is whether `self.port_servers.get(dest_code)`
found a server, `portClients`/`webClients` the two subscriber counts
and `origEqDest` whether `orig_code == dest_code` (in which case
`synchronous_translate` returns the text without a remote call).
`ttsCalled` records whether `broadcast_audio` reached
`tts_engine.generate_audio`. -/
def processSingleLang (portServerExists : Bool)
    (portClients webClients : Nat) (origEqDest : Bool) : LangOutcome :=
  if portServerExists = false then noOutcome
  else if portClients = 0 ∧ webClients = 0 then noOutcome
  else
    { translateCalled := true
      remoteTranslateCalled := !origEqDest
      webBroadcast := decide (0 < webClients)
      ttsCalled := decide (0 < portClients)
      portBroadcast := decide (0 < portClients) }

/-- `MasterTranslationEngine.translate_loop` body for one utterance:
iterate `process_and_broadcast_single_lang` over every configured
target language (each has a port server, created in `main`).  Each
entry gives that language's port subscriber count and whether it
equals the source language. -/
def fanOut (webClients : Nat) (langs : List (Nat × Bool)) :
    List LangOutcome :=
  langs.map fun pc => processSingleLang true pc.1 webClients pc.2

/-- Claim C1: for every utterance dispatched by the fan-out engine
and every configured target language, the translation step (and any
synthesis that happens) is invoked iff the broadcast channel or that
language's channel has at least one subscriber; with zero subscribers
on both, no translation, synthesis or broadcast call is made. -/
theorem fanout_translates_iff_subscribers
    (webClients portClients : Nat) (oed : Bool)
    (langs : List (Nat × Bool)) (hmem : (portClients, oed) ∈ langs) :
    processSingleLang true portClients webClients oed
        ∈ fanOut webClients langs
    ∧ ((processSingleLang true portClients webClients oed).translateCalled
        = true ↔ (0 < webClients ∨ 0 < portClients))
    ∧ ((processSingleLang true portClients webClients oed).ttsCalled = true
        → (0 < webClients ∨ 0 < portClients))
    ∧ (webClients = 0 → portClients = 0 →
        processSingleLang true portClients webClients oed = noOutcome) := by
  have hps : processSingleLang true portClients webClients oed =
      if portClients = 0 ∧ webClients = 0 then noOutcome
      else
        { translateCalled := true
          remoteTranslateCalled := !oed
          webBroadcast := decide (0 < webClients)
          ttsCalled := decide (0 < portClients)
          portBroadcast := decide (0 < portClients) } := rfl
  refine ⟨List.mem_map_of_mem _ hmem, ?_, ?_, ?_⟩
  · rw [hps]
    by_cases h : portClients = 0 ∧ webClients = 0
    · rw [if_pos h]
      constructor
      · intro hc; exact absurd hc (by simp [noOutcome])
      · intro hc; omega
    · rw [if_neg h]
      constructor
      · intro _; omega
      · intro _; rfl
  · rw [hps]
    by_cases h : portClients = 0 ∧ webClients = 0
    · rw [if_pos h]
      intro hc; exact absurd hc (by simp [noOutcome])
    · rw [if_neg h]
      intro _; omega
  · intro hw hp
    rw [hps, if_pos ⟨hp, hw⟩]

/-- Witness for C1: one language with a single broadcast subscriber
gets translated; one with zero subscribers on both channels is
skipped entirely. -/
theorem fanout_translates_iff_subscribers_witness :
    processSingleLang true 0 1 false ∈ fanOut 1 [(0, false), (2, true)]
    ∧ ((processSingleLang true 0 1 false).translateCalled = true
        ↔ (0 < 1 ∨ 0 < 0))
    ∧ (0 = 0 → 0 = 0 → processSingleLang true 0 0 true = noOutcome) :=
  ⟨(fanout_translates_iff_subscribers 1 0 false [(0, false), (2, true)]
      (by decide)).1,
   (fanout_translates_iff_subscribers 1 0 false [(0, false), (2, true)]
      (by decide)).2.1,
   (fanout_translates_iff_subscribers 0 0 true [(0, true)]
      (by decide)).2.2.2⟩

/-! ### Error isolation in the fan-out loop

`translate_loop` wraps the whole per-utterance language loop in one
`try ... except Exception`; inside `process_and_broadcast_single_lang`
only the two `future.result(timeout=...)` calls are individually
wrapped, while `synchronous_translate` is not.  We inject failures to
study error propagation. -/

structure LangCfg where
  portClients : Nat
  translateFails : Bool
  webSendFails : Bool
  portSendFails : Bool
deriving DecidableEq, Repr

structure DeliveryOutcome where
  translated : Bool
  webDelivered : Bool
  webErrorLogged : Bool
  portDelivered : Bool
  portErrorLogged : Bool
deriving DecidableEq, Repr

/-- Outcome when the language is skipped for lack of subscribers. -/
def skipOutcome : DeliveryOutcome := ⟨false, false, false, false, false⟩

/-- The outcome `process_and_broadcast_single_lang` produces when the
translation call succeeds: each broadcast-future failure is caught
in its own `try/except` and logged, the other channel still runs. -/
def deliveredOutcome (web : Nat) (c : LangCfg) : DeliveryOutcome :=
  if c.portClients = 0 ∧ web = 0 then skipOutcome
  else
    { translated := true
      webDelivered := decide (0 < web) && !c.webSendFails
      webErrorLogged := decide (0 < web) && c.webSendFails
      portDelivered := decide (0 < c.portClients) && !c.portSendFails
      portErrorLogged := decide (0 < c.portClients) && c.portSendFails }

/-- `process_and_broadcast_single_lang` with failure injection: an
exception from `synchronous_translate` escapes the function, while
broadcast-future errors are caught per channel. -/
def processSingleLangExc (web : Nat) (c : LangCfg) :
    Except Unit DeliveryOutcome :=
  if c.portClients = 0 ∧ web = 0 then .ok skipOutcome
  else if c.translateFails then .error ()
  else .ok (deliveredOutcome web c)

/-- The `for dest_code ... : process_and_broadcast_single_lang(...)`
loop inside the per-utterance `try` block of `translate_loop`: an
exception escaping one language's processing aborts the loop (the
remaining languages are not attempted) and lands in the outer
`except Exception` handler.  Returns the outcomes of the languages
attempted and whether the outer handler caught an error. -/
def translateUtterance (web : Nat) :
    List LangCfg → List DeliveryOutcome × Bool
  | [] => ([], false)
  | c :: cs =>
    match processSingleLangExc web c with
    | .error _ => ([], true)
    | .ok r =>
      let p := translateUtterance web cs
      (r :: p.1, p.2)

/-- The outer `while not self.stop_event.is_set()` loop of
`translate_loop` over successive utterances: every error is caught by
the per-utterance handler (logged, short cooldown) and the loop moves
on to the next utterance, so nothing propagates further. -/
def translateLoop (web : Nat) (utts : List (List LangCfg)) :
    List (List DeliveryOutcome) :=
  utts.map fun cs => (translateUtterance web cs).1

lemma processSingleLangExc_ok (web : Nat) (c : LangCfg)
    (hc : c.translateFails = false) :
    processSingleLangExc web c = .ok (deliveredOutcome web c) := by
  unfold processSingleLangExc
  split
  · rename_i h
    rw [deliveredOutcome, if_pos h]
  · rw [if_neg (by simp [hc])]

/-- Claim C3 counterexample: two configured languages, each with one
subscriber on its language channel; a translation error while
processing the first language leaves the second language without any
delivery attempt (empty outcome list), contradicting the claim that a
translation error for language i does not prevent the delivery
attempts for the remaining languages. -/
theorem translation_error_aborts_remaining :
    translateUtterance 1
        [⟨1, true, false, false⟩, ⟨1, false, false, false⟩] = ([], true)
    ∧ (translateUtterance 1
        [⟨1, true, false, false⟩, ⟨1, false, false, false⟩]).1.length = 0 := by
  constructor <;> rfl

/-- Claim C3 amended: a broadcast or delivery error or timeout
(including synthesis failures surfaced through the broadcast future)
is caught and logged within its own language's processing and does
not prevent the delivery attempts for the remaining languages; an
error raised by the translation call itself aborts the remaining
languages of that utterance, but every error is caught by the
translation loop, which continues with subsequent utterances, and
none is ever propagated to the transcription session loop. -/
theorem delivery_errors_isolated (web : Nat) (cfgs : List LangCfg)
    (h : ∀ c ∈ cfgs, c.translateFails = false) :
    translateUtterance web cfgs = (cfgs.map (deliveredOutcome web), false)
    ∧ ∀ (utts : List (List LangCfg)),
        (translateLoop web utts).length = utts.length := by
  constructor
  · induction cfgs with
    | nil => rfl
    | cons c cs ih =>
      have hc : c.translateFails = false := h c (by simp)
      have hok := processSingleLangExc_ok web c hc
      have ihh := ih (fun x hx => h x (by simp [hx]))
      simp [translateUtterance, hok, ihh]
  · intro utts
    simp [translateLoop]

/-- Witness for C3 amended: a web-broadcast failure on the first
language still lets the second language deliver to its port
subscriber. -/
theorem delivery_errors_isolated_witness :
    translateUtterance 2
        [⟨0, false, true, false⟩, ⟨3, false, false, false⟩] =
      ([⟨true, false, true, false, false⟩,
        ⟨true, true, false, true, false⟩], false)
    ∧ (translateLoop 2 [[⟨0, false, true, false⟩], []]).length = 2 := by
  have hth := delivery_errors_isolated 2
    [⟨0, false, true, false⟩, ⟨3, false, false, false⟩] (by decide)
  exact ⟨by rw [hth.1]; rfl, hth.2 [[⟨0, false, true, false⟩], []]⟩

/-! ## Distribution channels (`src/networking.py`, `src/master.py`)

Subscribers are opaque handles, modelled as naturals; `fails` says
which handles' writes fail during one publish. -/

/-- The send loop of `LanguagePortServer.broadcast_audio`: each write
is wrapped in its own `try/except`; a failing client is appended to
`disconnected` and the loop continues with the rest.  Returns the
clients that received the payload and the `disconnected` list. -/
def portSendLoop (clients : List Nat) (fails : Nat → Bool) :
    List Nat × List Nat :=
  match clients with
  | [] => ([], [])
  | c :: cs =>
    let p := portSendLoop cs fails
    if fails c then (p.1, c :: p.2) else (c :: p.1, p.2)

/-- After its send loop, `broadcast_audio` discards every client in
`disconnected` from `self.clients`. -/
def broadcastAudioClients (clients : List Nat) (fails : Nat → Bool) :
    List Nat :=
  (portSendLoop clients fails).2.foldl (fun acc c => acc.erase c) clients

/-- `NetworkServer.broadcast_message`: creates one send task per
client and `asyncio.wait`s for all of them; every send is attempted,
task exceptions are retained, and the client set is not modified.
Returns the clients whose send succeeded and the set afterwards. -/
def broadcastMessage (clients : List Nat) (fails : Nat → Bool) :
    List Nat × List Nat :=
  (clients.filter (fun c => !fails c), clients)

lemma portSendLoop_fst (clients : List Nat) (fails : Nat → Bool) :
    (portSendLoop clients fails).1 = clients.filter (fun c => !fails c) := by
  induction clients with
  | nil => rfl
  | cons c cs ih =>
    cases hf : fails c <;> simp [portSendLoop, hf, ih]

lemma portSendLoop_snd (clients : List Nat) (fails : Nat → Bool) :
    (portSendLoop clients fails).2 = clients.filter fails := by
  induction clients with
  | nil => rfl
  | cons c cs ih =>
    cases hf : fails c <;> simp [portSendLoop, hf, ih]

lemma mem_foldl_erase (ds : List Nat) :
    ∀ (l : List Nat) (x : Nat),
      x ∈ ds.foldl (fun acc c => acc.erase c) l → x ∈ l := by
  induction ds with
  | nil => intro l x h; exact h
  | cons d ds ih =>
    intro l x h
    exact List.mem_of_mem_erase (ih (l.erase d) x h)

lemma not_mem_foldl_erase (ds : List Nat) :
    ∀ (l : List Nat) (x : Nat), l.Nodup → x ∈ ds →
      x ∉ ds.foldl (fun acc c => acc.erase c) l := by
  induction ds with
  | nil => intro l x _ h; exact absurd h (List.not_mem_nil x)
  | cons d ds ih =>
    intro l x hnd hx
    rcases List.mem_cons.mp hx with hxd | hxs
    · subst hxd
      intro hmem
      have hx2 : x ∈ l.erase x := mem_foldl_erase ds (l.erase x) x hmem
      rw [List.Nodup.mem_erase_iff hnd] at hx2
      exact hx2.1 rfl
    · exact ih (l.erase d) x (hnd.erase d) hxs

/-- Claim C8 counterexample: a publish on the WebSocket broadcast
channel to three subscribers where subscriber 2's send fails still
delivers to the other two, but subscriber 2 remains in the channel's
subscriber set afterwards — `broadcast_message` does not remove
failed subscribers, contradicting the claim for this channel kind. -/
theorem failed_ws_send_not_removed :
    (broadcastMessage [1, 2, 3] (fun c => c == 2)).1 = [1, 3]
    ∧ 2 ∈ (broadcastMessage [1, 2, 3] (fun c => c == 2)).2 := by
  constructor <;> decide

/-- Claim C8 amended: a failed send to one subscriber never prevents
delivery of the payload to the other subscribers, on either channel
kind; on the language channel the publish removes each failed
subscriber from the set, while on the WebSocket broadcast channel the
publish leaves the subscriber set unchanged (failed subscribers are
removed later, by their own connection handler on disconnect). -/
theorem failed_send_isolated (clients : List Nat) (fails : Nat → Bool)
    (hnd : clients.Nodup) :
    ((portSendLoop clients fails).1 = clients.filter (fun c => !fails c))
    ∧ (∀ c ∈ clients, fails c = false → c ∈ (portSendLoop clients fails).1)
    ∧ (∀ c ∈ clients, fails c = true →
        c ∉ broadcastAudioClients clients fails)
    ∧ ((broadcastMessage clients fails).1 =
        clients.filter (fun c => !fails c))
    ∧ ((broadcastMessage clients fails).2 = clients) := by
  refine ⟨portSendLoop_fst clients fails, ?_, ?_, rfl, rfl⟩
  · intro c hc hf
    rw [portSendLoop_fst]
    exact List.mem_filter.mpr ⟨hc, by simp [hf]⟩
  · intro c hc hf
    unfold broadcastAudioClients
    apply not_mem_foldl_erase _ _ _ hnd
    rw [portSendLoop_snd]
    exact List.mem_filter.mpr ⟨hc, hf⟩

/-- Witness for C8 amended: with three subscribers and subscriber 2
failing, 1 and 3 still receive and 2 is removed from the language
channel's set. -/
theorem failed_send_isolated_witness :
    (portSendLoop [1, 2, 3] (fun c => c == 2)).1 = [1, 3]
    ∧ (2 ∉ broadcastAudioClients [1, 2, 3] (fun c => c == 2))
    ∧ (broadcastMessage [1, 2, 3] (fun c => c == 2)).2 = [1, 2, 3] :=
  ⟨by
    rw [(failed_send_isolated [1, 2, 3] (fun c => c == 2) (by decide)).1]
    decide,
   (failed_send_isolated [1, 2, 3] (fun c => c == 2)
      (by decide)).2.2.1 2 (by decide) (by decide),
   (failed_send_isolated [1, 2, 3] (fun c => c == 2) (by decide)).2.2.2.2⟩

/-! ## Pause policy driven by subscriber transitions -/

/-- Shared state relevant to the pause policy: the WebSocket
broadcast subscriber set (`NetworkServer.clients`), one language
channel's TCP subscriber set (`LanguagePortServer.clients`), and the
transcriber's `is_paused` flag. -/
structure SysState where
  wsClients : List Nat
  portClients : List Nat
  isPaused : Bool
deriving DecidableEq, Repr

/-- `TranscriptionEngine.toggle_pause`. -/
def togglePause (s : SysState) : SysState :=
  { s with isPaused := !s.isPaused }

/-- Python `set.add`: no-op when the element is already present. -/
def addClient (l : List Nat) (c : Nat) : List Nat :=
  if c ∈ l then l else c :: l

/-- The connect prologue of `NetworkServer.websocket_handler`: add
the websocket to `self.clients`; if it is now the only client and the
transcriber is paused, toggle the pause flag. -/
def wsConnect (s : SysState) (c : Nat) : SysState :=
  let s1 : SysState := { s with wsClients := addClient s.wsClients c }
  if s1.wsClients.length = 1 then
    (if s1.isPaused then togglePause s1 else s1)
  else s1

/-- The `finally` block of `websocket_handler`: remove the websocket;
if no client is left and the transcriber is unpaused, toggle the
pause flag. -/
def wsDisconnect (s : SysState) (c : Nat) : SysState :=
  let s1 : SysState := { s with wsClients := s.wsClients.erase c }
  if s1.wsClients.length = 0 then
    (if !s1.isPaused then togglePause s1 else s1)
  else s1

/-- `LanguagePortServer.handle_client` on connect: adds the client to
that port server's set; it never touches the pause flag. -/
def portConnect (s : SysState) (c : Nat) : SysState :=
  { s with portClients := addClient s.portClients c }

/-- `LanguagePortServer.handle_client` on disconnect: discards the
client from the set; it never touches the pause flag. -/
def portDisconnect (s : SysState) (c : Nat) : SysState :=
  { s with portClients := s.portClients.erase c }

/-- Claim C9: the engine starts paused, the 0-to-1 WebSocket connect
transition unpauses it, the 1-to-0 disconnect transition pauses it,
every other WebSocket transition leaves the flag as it was, and
language-channel (TCP) connects and disconnects never change it. -/
theorem pause_toggles_only_on_ws_transitions (s : SysState) (c : Nat) :
    initialIsPaused = true
    ∧ (s.wsClients = [] → (wsConnect s c).isPaused = false)
    ∧ (c ∉ s.wsClients → s.wsClients ≠ [] →
        (wsConnect s c).isPaused = s.isPaused)
    ∧ (s.wsClients = [c] → (wsDisconnect s c).isPaused = true)
    ∧ (s.wsClients.erase c ≠ [] →
        (wsDisconnect s c).isPaused = s.isPaused)
    ∧ ((portConnect s c).isPaused = s.isPaused)
    ∧ ((portDisconnect s c).isPaused = s.isPaused) := by
  refine ⟨rfl, ?_, ?_, ?_, ?_, rfl, rfl⟩
  · intro h
    cases hb : s.isPaused <;>
      simp [wsConnect, addClient, h, togglePause, hb]
  · intro hc hne
    have hlen : s.wsClients.length ≠ 0 := by
      simpa [List.length_eq_zero] using hne
    simp only [wsConnect, addClient, if_neg hc]
    rw [if_neg (by simp only [List.length_cons]; omega)]
  · intro h
    cases hb : s.isPaused <;>
      simp [wsDisconnect, h, togglePause, hb]
  · intro hne
    have hlen : (s.wsClients.erase c).length ≠ 0 := by
      simpa [List.length_eq_zero] using hne
    simp only [wsDisconnect]
    rw [if_neg hlen]

/-- Witness for C9: from the initial paused state with no clients,
the first WebSocket subscriber unpauses; its disconnect re-pauses;
a TCP client connecting changes nothing. -/
theorem pause_toggles_only_on_ws_transitions_witness :
    (wsConnect ⟨[], [], true⟩ 5).isPaused = false
    ∧ (wsDisconnect ⟨[5], [], false⟩ 5).isPaused = true
    ∧ (portConnect ⟨[], [], true⟩ 9).isPaused = true :=
  ⟨(pause_toggles_only_on_ws_transitions ⟨[], [], true⟩ 5).2.1 rfl,
   (pause_toggles_only_on_ws_transitions ⟨[5], [], false⟩ 5).2.2.2.1 rfl,
   (pause_toggles_only_on_ws_transitions ⟨[], [], true⟩ 9).2.2.2.2.2.1⟩

/-! ## Framed language-channel wire format (`src/master.py`,
`src/slave.py`)

`broadcast_audio` serializes the payload dict with Python's
`json.dumps` (default `ensure_ascii=True`, so the JSON text is pure
ASCII with `\uXXXX` escapes), UTF-8-encodes it, and prefixes the
4-byte big-endian length; `SlaveClient.receive_message` reads the
4-byte prefix, reads exactly that many bytes, UTF-8-decodes and
`json.loads` the result.  Characters are Unicode code points and
bytes are naturals below 256. -/

/-- A code point that is a valid Unicode scalar value. -/
def isScalar (c : Nat) : Prop :=
  c < 1114112 ∧ ¬(55296 ≤ c ∧ c < 57344)

instance (c : Nat) : Decidable (isScalar c) := by
  unfold isScalar; infer_instance

/-- Lowercase hex digit character for a value below 16, as produced
by Python's `'\\u{0:04x}'.format`. -/
def hexDig (d : Nat) : Nat :=
  if d < 10 then 48 + d else 87 + d

/-- Numeric value of a hex digit character (either case), as accepted
by `json.loads`. -/
def hexVal (c : Nat) : Option Nat :=
  if 48 ≤ c ∧ c ≤ 57 then some (c - 48)
  else if 97 ≤ c ∧ c ≤ 102 then some (c - 87)
  else if 65 ≤ c ∧ c ≤ 70 then some (c - 55)
  else none

/-- The four hex digits of a value below 65536, most significant
first. -/
def toHex4 (n : Nat) : List Nat :=
  [hexDig (n / 4096 % 16), hexDig (n / 256 % 16),
   hexDig (n / 16 % 16), hexDig (n % 16)]

/-- Value of four parsed hex digits. -/
def hex4 (a b c d : Nat) : Nat :=
  a * 4096 + b * 256 + c * 16 + d

/-- `json.dumps` (`ensure_ascii=True`) escaping of one code point:
quote and backslash get two-character escapes, the five named control
escapes apply, any other character outside the printable ASCII range
32..126 becomes `\uXXXX` (a surrogate pair when above 65535). -/
def escapeChar (c : Nat) : List Nat :=
  if c = 34 then [92, 34]
  else if c = 92 then [92, 92]
  else if c = 8 then [92, 98]
  else if c = 9 then [92, 116]
  else if c = 10 then [92, 110]
  else if c = 12 then [92, 102]
  else if c = 13 then [92, 114]
  else if c < 32 then 92 :: 117 :: toHex4 c
  else if c < 127 then [c]
  else if c < 65536 then 92 :: 117 :: toHex4 c
  else
    92 :: 117 :: toHex4 (55296 + (c - 65536) / 1024) ++
      (92 :: 117 :: toHex4 (56320 + (c - 65536) % 1024))

def escapeString : List Nat → List Nat
  | [] => []
  | c :: cs => escapeChar c ++ escapeString cs

/-- A JSON string literal: quote, escaped contents, quote. -/
def strLit (s : List Nat) : List Nat :=
  34 :: (escapeString s ++ [34])

/-- Four hex digits of a `\uXXXX` escape, as `json.loads` reads
them: returns the value and the remaining input. -/
def scanU : List Nat → Option (Nat × List Nat)
  | a :: b :: c2 :: d :: rest3 =>
    match hexVal a, hexVal b, hexVal c2, hexVal d with
    | some va, some vb, some vc, some vd => some (hex4 va vb vc vd, rest3)
    | _, _, _, _ => none
  | _ => none

/-- The low-surrogate continuation of a `\uXXXX` escape whose value
`v` was a high surrogate: if another `\uXXXX` escape with a low
surrogate follows, the pair is combined into one code point;
otherwise the lone high surrogate is kept, as Python does. -/
def scanPair (v : Nat) : List Nat → Option (Nat × List Nat)
  | 92 :: 117 :: rest3a =>
    match scanU rest3a with
    | some (w, rest4) =>
      if 56320 ≤ w ∧ w < 57344 then
        some (65536 + (v - 55296) * 1024 + (w - 56320), rest4)
      else some (v, 92 :: 117 :: rest3a)
    | none => some (v, 92 :: 117 :: rest3a)
  | r3 => some (v, r3)

/-- One escape sequence of a JSON string, after the backslash, as
`json.loads` reads it: the three verbatim escapes, the five named
control escapes, or `\uXXXX` (with surrogate-pair handling).
Returns the decoded code point and the remaining input. -/
def scanEsc : List Nat → Option (Nat × List Nat)
  | [] => none
  | e :: rest2 =>
    if e = 34 ∨ e = 92 ∨ e = 47 then some (e, rest2)
    else if e = 98 then some (8, rest2)
    else if e = 116 then some (9, rest2)
    else if e = 110 then some (10, rest2)
    else if e = 102 then some (12, rest2)
    else if e = 114 then some (13, rest2)
    else if e = 117 then
      match scanU rest2 with
      | none => none
      | some (v, rest3) =>
        if 55296 ≤ v ∧ v < 56320 then scanPair v rest3
        else some (v, rest3)
    else none

/-- One step of the `json.loads` string scanner: the closing quote,
an escape sequence, or a verbatim character (raw control characters
are rejected, as in strict mode).  Returns `none` for the quote and
the decoded code point otherwise, with the remaining input. -/
def scanTok : List Nat → Option (Option Nat × List Nat)
  | [] => none
  | c :: rest =>
    if c = 34 then some (none, rest)
    else if c = 92 then (scanEsc rest).map (fun p => (some p.1, p.2))
    else if c < 32 then none
    else some (some c, rest)

/-- The `json.loads` string scanner loop, applied after an opening
quote: scans tokens up to the closing quote.  Each step consumes at
least one character, so the input length bounds the number of steps
and serves as fuel.  Returns the decoded string and the remaining
input. -/
def parseStrF : Nat → List Nat → Option (List Nat × List Nat)
  | 0, _ => none
  | fuel + 1, l =>
    match scanTok l with
    | none => none
    | some (none, rest) => some ([], rest)
    | some (some ch, rest) =>
      (parseStrF fuel rest).map (fun p => (ch :: p.1, p.2))

/-- The `json.loads` string scanner applied after an opening quote. -/
def parseStr (l : List Nat) : Option (List Nat × List Nat) :=
  parseStrF l.length l

/-- Parse a JSON string literal: expect the opening quote, then scan
to the closing quote. -/
def parseStrLit (l : List Nat) : Option (List Nat × List Nat) :=
  match l with
  | c :: rest => if c = 34 then parseStr rest else none
  | _ => none

/-- Expect an exact literal character sequence, returning what
follows it. -/
def dropLit : List Nat → List Nat → Option (List Nat)
  | [], l => some l
  | _ :: _, [] => none
  | p :: ps, x :: xs => if p = x then dropLit ps xs else none

/-- The key `type` as code points. -/
def typeKey : List Nat := [116, 121, 112, 101]

/-- The key `language_code` as code points. -/
def langKey : List Nat :=
  [108, 97, 110, 103, 117, 97, 103, 101, 95, 99, 111, 100, 101]

/-- The key `text` as code points. -/
def textKey : List Nat := [116, 101, 120, 116]

/-- The key `audio_data` as code points. -/
def audioKey : List Nat := [97, 117, 100, 105, 111, 95, 100, 97, 116, 97]

/-- The message dict built in `broadcast_audio`: unicode text fields
and an optional base64 audio field (base64 text is ASCII, a special
case of a scalar string). -/
structure Payload where
  type : List Nat
  language_code : List Nat
  text : List Nat
  audio_data : Option (List Nat)
deriving DecidableEq, Repr

/-- Every code point of every field is a Unicode scalar value. -/
def validPayload (p : Payload) : Prop :=
  (∀ c ∈ p.type, isScalar c) ∧ (∀ c ∈ p.language_code, isScalar c)
  ∧ (∀ c ∈ p.text, isScalar c)
  ∧ (∀ a, p.audio_data = some a → ∀ c ∈ a, isScalar c)

/-- `json.dumps(message)` for the payload dict, with the default
separators `', '` and `': '` and insertion key order, as CPython
produces for `broadcast_audio`'s message. -/
def jsonDumps (p : Payload) : List Nat :=
  [123] ++ strLit typeKey ++ [58, 32] ++ strLit p.type
    ++ [44, 32] ++ strLit langKey ++ [58, 32] ++ strLit p.language_code
    ++ [44, 32] ++ strLit textKey ++ [58, 32] ++ strLit p.text
    ++ (match p.audio_data with
        | none => []
        | some a => [44, 32] ++ strLit audioKey ++ [58, 32] ++ strLit a)
    ++ [125]

/-- Parse one `"key": "value"` pair of the object, checking the key
and returning the decoded value string and the remaining input. -/
def parseKV (key : List Nat) (l : List Nat) :
    Option (List Nat × List Nat) :=
  (parseStrLit l).bind fun kr =>
  if kr.1 = key then (dropLit [58, 32] kr.2).bind fun r2 => parseStrLit r2
  else none

/-- Parse the optional `, "audio_data": "..."` pair and the closing
brace, completing the payload. -/
def parseAudioTail (ty lc tx : List Nat) : List Nat → Option Payload
  | [125] => some ⟨ty, lc, tx, none⟩
  | 44 :: 32 :: r6 =>
    (parseKV audioKey r6).bind fun ar =>
    match ar.2 with
    | [125] => some ⟨ty, lc, tx, some ar.1⟩
    | _ => none
  | _ => none

/-- `json.loads` restricted to the object shape `json.dumps` emits
for the payload dict: brace, the four key/value string pairs in
order (the audio pair optional), closing brace, end of input. -/
def jsonLoads (l : List Nat) : Option Payload :=
  (dropLit [123] l).bind fun r0 =>
  (parseKV typeKey r0).bind fun tyr =>
  (dropLit [44, 32] tyr.2).bind fun r2 =>
  (parseKV langKey r2).bind fun lcr =>
  (dropLit [44, 32] lcr.2).bind fun r4 =>
  (parseKV textKey r4).bind fun txr =>
  parseAudioTail tyr.1 lcr.1 txr.1 txr.2

/-- UTF-8 encoding of one Unicode scalar value. -/
def utf8EncodeChar (c : Nat) : List Nat :=
  if c < 128 then [c]
  else if c < 2048 then [192 + c / 64, 128 + c % 64]
  else if c < 65536 then
    [224 + c / 4096, 128 + c / 64 % 64, 128 + c % 64]
  else
    [240 + c / 262144, 128 + c / 4096 % 64, 128 + c / 64 % 64,
     128 + c % 64]

def utf8Encode : List Nat → List Nat
  | [] => []
  | c :: cs => utf8EncodeChar c ++ utf8Encode cs

/-- Decode the continuation of a 2-byte UTF-8 sequence with lead
byte `b`, rejecting bad continuation bytes and overlong encodings. -/
def utf8Decode2 (b : Nat) : List Nat → Option (Nat × List Nat)
  | b1 :: rest1 =>
    if 128 ≤ b1 ∧ b1 < 192 then
      if 128 ≤ (b - 192) * 64 + (b1 - 128) then
        some ((b - 192) * 64 + (b1 - 128), rest1)
      else none
    else none
  | _ => none

/-- Decode the continuation of a 3-byte UTF-8 sequence with lead
byte `b`, rejecting bad continuation bytes, overlong encodings and
surrogates. -/
def utf8Decode3 (b : Nat) : List Nat → Option (Nat × List Nat)
  | b1 :: b2 :: rest2 =>
    if (128 ≤ b1 ∧ b1 < 192) ∧ (128 ≤ b2 ∧ b2 < 192) then
      if 2048 ≤ (b - 224) * 4096 + (b1 - 128) * 64 + (b2 - 128)
          ∧ isScalar ((b - 224) * 4096 + (b1 - 128) * 64 + (b2 - 128))
      then some ((b - 224) * 4096 + (b1 - 128) * 64 + (b2 - 128), rest2)
      else none
    else none
  | _ => none

/-- Decode the continuation of a 4-byte UTF-8 sequence with lead
byte `b`, rejecting bad continuation bytes, overlong encodings and
out-of-range values. -/
def utf8Decode4 (b : Nat) : List Nat → Option (Nat × List Nat)
  | b1 :: b2 :: b3 :: rest3 =>
    if (128 ≤ b1 ∧ b1 < 192) ∧ (128 ≤ b2 ∧ b2 < 192)
        ∧ (128 ≤ b3 ∧ b3 < 192) then
      if 65536 ≤ (b - 240) * 262144 + (b1 - 128) * 4096
            + (b2 - 128) * 64 + (b3 - 128)
          ∧ (b - 240) * 262144 + (b1 - 128) * 4096
            + (b2 - 128) * 64 + (b3 - 128) < 1114112 then
        some ((b - 240) * 262144 + (b1 - 128) * 4096
          + (b2 - 128) * 64 + (b3 - 128), rest3)
      else none
    else none
  | _ => none

/-- Decode one UTF-8 code point: ASCII byte, or a 2-, 3- or 4-byte
sequence selected by the lead byte. -/
def utf8DecodeChar : List Nat → Option (Nat × List Nat)
  | [] => none
  | b :: rest =>
    if b < 128 then some (b, rest)
    else if b < 192 then none
    else if b < 224 then utf8Decode2 b rest
    else if b < 240 then utf8Decode3 b rest
    else if b < 248 then utf8Decode4 b rest
    else none

/-- The strict UTF-8 decoding loop.  Each code point consumes at
least one byte, so the input length bounds the number of steps and
serves as fuel. -/
def utf8DecodeF : Nat → List Nat → Option (List Nat)
  | _, [] => some []
  | 0, _ :: _ => none
  | fuel + 1, b :: rest =>
    match utf8DecodeChar (b :: rest) with
    | none => none
    | some (v, rest1) => (utf8DecodeF fuel rest1).map (fun s => v :: s)

/-- Strict UTF-8 decoding (as Python's `bytes.decode('utf-8')`). -/
def utf8Decode (l : List Nat) : Option (List Nat) :=
  utf8DecodeF l.length l

/-- `len(json_data).to_bytes(4, byteorder='big')`. -/
def lenBytes4 (n : Nat) : List Nat :=
  [n / 16777216 % 256, n / 65536 % 256, n / 256 % 256, n % 256]

/-- `int.from_bytes(length_bytes, byteorder='big')`. -/
def fromBytesBE (l : List Nat) : Nat :=
  l.foldl (fun acc b => acc * 256 + b) 0

/-- `broadcast_audio` framing: `length_prefix + json_data` where
`json_data = json.dumps(message).encode('utf-8')`. -/
def encodeFrame (p : Payload) : List Nat :=
  lenBytes4 (utf8Encode (jsonDumps p)).length ++ utf8Encode (jsonDumps p)

/-- `SlaveClient.receive_message`: `readexactly(4)`, big-endian
length, `readexactly(length)`, UTF-8 decode, `json.loads`.  A stream
too short for either read models `IncompleteReadError`. -/
def receiveMessage (stream : List Nat) : Option Payload :=
  match stream with
  | b0 :: b1 :: b2 :: b3 :: rest =>
    if rest.length < fromBytesBE [b0, b1, b2, b3] then none
    else
      match utf8Decode (rest.take (fromBytesBE [b0, b1, b2, b3])) with
      | none => none
      | some chars => jsonLoads chars
  | _ => none

lemma hexVal_hexDig (d : Nat) (hd : d < 16) : hexVal (hexDig d) = some d := by
  interval_cases d <;> decide

lemma hex4_digits (c : Nat) :
    hex4 (c / 4096 % 16) (c / 256 % 16) (c / 16 % 16) (c % 16) = c % 65536 := by
  unfold hex4
  omega

lemma scanU_toHex4 (v : Nat) (hv : v < 65536) (r : List Nat) :
    scanU (toHex4 v ++ r) = some (v, r) := by
  simp only [toHex4, List.cons_append, List.nil_append]
  rw [scanU]
  rw [hexVal_hexDig _ (show v / 4096 % 16 < 16 by omega),
      hexVal_hexDig _ (show v / 256 % 16 < 16 by omega),
      hexVal_hexDig _ (show v / 16 % 16 < 16 by omega),
      hexVal_hexDig _ (show v % 16 < 16 by omega)]
  simp only [hex4_digits, Nat.mod_eq_of_lt hv]

lemma scanEsc_u (v : Nat) (hv : v < 65536)
    (hns : ¬(55296 ≤ v ∧ v < 56320)) (r : List Nat) :
    scanEsc (117 :: (toHex4 v ++ r)) = some (v, r) := by
  rw [scanEsc]
  rw [if_neg (show ¬((117:Nat) = 34 ∨ (117:Nat) = 92 ∨ (117:Nat) = 47) by decide),
      if_neg (show ¬((117:Nat) = 98) by decide),
      if_neg (show ¬((117:Nat) = 116) by decide),
      if_neg (show ¬((117:Nat) = 110) by decide),
      if_neg (show ¬((117:Nat) = 102) by decide),
      if_neg (show ¬((117:Nat) = 114) by decide),
      if_pos (show (117:Nat) = 117 from rfl)]
  rw [scanU_toHex4 v hv r]
  exact if_neg hns

lemma scanPair_low (v lo : Nat) (hlo1 : 56320 ≤ lo) (hlo2 : lo < 57344)
    (r : List Nat) :
    scanPair v (92 :: 117 :: (toHex4 lo ++ r)) =
      some (65536 + (v - 55296) * 1024 + (lo - 56320), r) := by
  rw [scanPair, scanU_toHex4 lo (by omega) r]
  exact if_pos ⟨hlo1, hlo2⟩

lemma scanEsc_pair (c : Nat) (h1 : 65536 ≤ c) (h2 : c < 1114112)
    (r : List Nat) :
    scanEsc (117 :: (toHex4 (55296 + (c - 65536) / 1024) ++
      (92 :: 117 :: (toHex4 (56320 + (c - 65536) % 1024) ++ r)))) =
      some (c, r) := by
  rw [scanEsc]
  rw [if_neg (show ¬((117:Nat) = 34 ∨ (117:Nat) = 92 ∨ (117:Nat) = 47) by decide),
      if_neg (show ¬((117:Nat) = 98) by decide),
      if_neg (show ¬((117:Nat) = 116) by decide),
      if_neg (show ¬((117:Nat) = 110) by decide),
      if_neg (show ¬((117:Nat) = 102) by decide),
      if_neg (show ¬((117:Nat) = 114) by decide),
      if_pos (show (117:Nat) = 117 from rfl)]
  rw [scanU_toHex4 (55296 + (c - 65536) / 1024) (by omega)
      (92 :: 117 :: (toHex4 (56320 + (c - 65536) % 1024) ++ r))]
  refine Eq.trans (if_pos ⟨by omega, by omega⟩) ?_
  rw [scanPair_low _ _ (by omega) (by omega) r]
  exact congrArg (fun x => some (x, r)) (by omega)

lemma scanTok_escapeChar (c : Nat) (hc : isScalar c) (t : List Nat) :
    scanTok (escapeChar c ++ t) = some (some c, t) := by
  obtain ⟨hlt, hsur⟩ := hc
  by_cases h34 : c = 34
  · subst h34; norm_num [escapeChar, scanTok, scanEsc]
  by_cases h92 : c = 92
  · subst h92; norm_num [escapeChar, scanTok, scanEsc]
  by_cases h8 : c = 8
  · subst h8; norm_num [escapeChar, scanTok, scanEsc]
  by_cases h9 : c = 9
  · subst h9; norm_num [escapeChar, scanTok, scanEsc]
  by_cases h10 : c = 10
  · subst h10; norm_num [escapeChar, scanTok, scanEsc]
  by_cases h12 : c = 12
  · subst h12; norm_num [escapeChar, scanTok, scanEsc]
  by_cases h13 : c = 13
  · subst h13; norm_num [escapeChar, scanTok, scanEsc]
  by_cases hctl : c < 32
  · have he : escapeChar c = 92 :: 117 :: toHex4 c := by
      unfold escapeChar
      rw [if_neg h34, if_neg h92, if_neg h8, if_neg h9, if_neg h10,
          if_neg h12, if_neg h13, if_pos hctl]
    rw [he]
    simp only [List.cons_append]
    rw [scanTok]
    rw [if_neg (show ¬((92:Nat) = 34) by decide),
        if_pos (show (92:Nat) = 92 from rfl)]
    rw [scanEsc_u c (by omega) (by omega) t]
    rfl
  by_cases hprint : c < 127
  · have he : escapeChar c = [c] := by
      unfold escapeChar
      rw [if_neg h34, if_neg h92, if_neg h8, if_neg h9, if_neg h10,
          if_neg h12, if_neg h13, if_neg hctl, if_pos hprint]
    rw [he]
    simp only [List.cons_append, List.nil_append]
    rw [scanTok]
    rw [if_neg h34, if_neg h92, if_neg (show ¬(c < 32) by omega)]
  by_cases h16 : c < 65536
  · have he : escapeChar c = 92 :: 117 :: toHex4 c := by
      unfold escapeChar
      rw [if_neg h34, if_neg h92, if_neg h8, if_neg h9, if_neg h10,
          if_neg h12, if_neg h13, if_neg hctl, if_neg hprint, if_pos h16]
    rw [he]
    simp only [List.cons_append]
    rw [scanTok]
    rw [if_neg (show ¬((92:Nat) = 34) by decide),
        if_pos (show (92:Nat) = 92 from rfl)]
    rw [scanEsc_u c (by omega) (by omega) t]
    rfl
  · have he : escapeChar c = 92 :: 117 :: toHex4 (55296 + (c - 65536) / 1024)
        ++ (92 :: 117 :: toHex4 (56320 + (c - 65536) % 1024)) := by
      unfold escapeChar
      rw [if_neg h34, if_neg h92, if_neg h8, if_neg h9, if_neg h10,
          if_neg h12, if_neg h13, if_neg hctl, if_neg hprint, if_neg h16]
    rw [he]
    simp only [List.cons_append, List.append_assoc]
    rw [scanTok]
    rw [if_neg (show ¬((92:Nat) = 34) by decide),
        if_pos (show (92:Nat) = 92 from rfl)]
    rw [scanEsc_pair c (by omega) hlt t]
    rfl


lemma scanTok_quote (t : List Nat) : scanTok (34 :: t) = some (none, t) := by
  rw [scanTok]
  exact if_pos rfl

lemma parseStrF_quote (fuel : Nat) (l rest : List Nat)
    (h : scanTok l = some (none, rest)) :
    parseStrF (fuel + 1) l = some ([], rest) := by
  rw [parseStrF, h]

lemma parseStrF_tok (fuel : Nat) (l : List Nat) (ch : Nat) (rest : List Nat)
    (h : scanTok l = some (some ch, rest)) :
    parseStrF (fuel + 1) l =
      (parseStrF fuel rest).map (fun p => (ch :: p.1, p.2)) := by
  rw [parseStrF, h]

lemma escapeChar_length_pos (c : Nat) : 1 ≤ (escapeChar c).length := by
  unfold escapeChar
  repeat' split
  all_goals simp [toHex4]

lemma escapeString_length (s : List Nat) :
    s.length ≤ (escapeString s).length := by
  induction s with
  | nil => simp [escapeString]
  | cons c cs ih =>
    have := escapeChar_length_pos c
    simp only [escapeString, List.length_append, List.length_cons]
    omega

lemma parseStrF_escape (s : List Nat) (hs : ∀ c ∈ s, isScalar c)
    (t : List Nat) :
    ∀ fuel, s.length + 1 ≤ fuel →
      parseStrF fuel (escapeString s ++ 34 :: t) = some (s, t) := by
  induction s with
  | nil =>
    intro fuel hf
    cases fuel with
    | zero => omega
    | succ f =>
      simp only [escapeString, List.nil_append]
      exact parseStrF_quote f (34 :: t) t (scanTok_quote t)
  | cons c cs ih =>
    intro fuel hf
    cases fuel with
    | zero => omega
    | succ f =>
      simp only [escapeString, List.append_assoc]
      rw [parseStrF_tok f _ c (escapeString cs ++ 34 :: t)
        (scanTok_escapeChar c (hs c (by simp)) (escapeString cs ++ 34 :: t))]
      rw [ih (fun x hx => hs x (by simp [hx])) f
        (by simp only [List.length_cons] at hf; omega)]
      rfl

lemma parseStr_escapeString (s : List Nat) (hs : ∀ c ∈ s, isScalar c)
    (t : List Nat) :
    parseStr (escapeString s ++ 34 :: t) = some (s, t) := by
  unfold parseStr
  apply parseStrF_escape s hs t
  have h1 := escapeString_length s
  simp only [List.length_append, List.length_cons]
  omega

lemma parseStrLit_strLit (s : List Nat) (hs : ∀ c ∈ s, isScalar c)
    (t : List Nat) :
    parseStrLit (strLit s ++ t) = some (s, t) := by
  have hform : strLit s ++ t = 34 :: (escapeString s ++ 34 :: t) := by
    simp [strLit]
  rw [hform, parseStrLit]
  rw [if_pos rfl]
  exact parseStr_escapeString s hs t

lemma dropLit123 (x : List Nat) : dropLit [123] (123 :: x) = some x := by
  norm_num [dropLit]

lemma dropLit5832 (x : List Nat) : dropLit [58, 32] (58 :: 32 :: x) = some x := by
  norm_num [dropLit]

lemma dropLit4432 (x : List Nat) : dropLit [44, 32] (44 :: 32 :: x) = some x := by
  norm_num [dropLit]

lemma parseKV_correct (key s : List Nat) (hkey : ∀ c ∈ key, isScalar c)
    (hs : ∀ c ∈ s, isScalar c) (t : List Nat) :
    parseKV key (strLit key ++ (58 :: 32 :: (strLit s ++ t))) = some (s, t) := by
  unfold parseKV
  rw [parseStrLit_strLit key hkey (58 :: 32 :: (strLit s ++ t))]
  simp only [Option.some_bind]
  rw [if_pos trivial]
  rw [dropLit5832 (strLit s ++ t)]
  simp only [Option.some_bind]
  exact parseStrLit_strLit s hs t

lemma parseAudioTail_none (ty lc tx : List Nat) :
    parseAudioTail ty lc tx [125] = some ⟨ty, lc, tx, none⟩ := rfl

lemma parseAudioTail_some (ty lc tx a : List Nat)
    (ha : ∀ c ∈ a, isScalar c) :
    parseAudioTail ty lc tx
        (44 :: 32 :: (strLit audioKey ++ (58 :: 32 :: (strLit a ++ [125])))) =
      some ⟨ty, lc, tx, some a⟩ := by
  simp only [parseAudioTail]
  rw [parseKV_correct audioKey a (by decide) ha [125]]
  simp only [Option.some_bind]

lemma jsonDumps_shape_none (ty lc tx : List Nat) :
    jsonDumps ⟨ty, lc, tx, none⟩ =
      123 :: (strLit typeKey ++ (58 :: 32 :: (strLit ty ++
        (44 :: 32 :: (strLit langKey ++ (58 :: 32 :: (strLit lc ++
        (44 :: 32 :: (strLit textKey ++ (58 :: 32 :: (strLit tx ++
        [125]))))))))))) := by
  simp [jsonDumps, List.append_assoc]

lemma jsonDumps_shape_some (ty lc tx a : List Nat) :
    jsonDumps ⟨ty, lc, tx, some a⟩ =
      123 :: (strLit typeKey ++ (58 :: 32 :: (strLit ty ++
        (44 :: 32 :: (strLit langKey ++ (58 :: 32 :: (strLit lc ++
        (44 :: 32 :: (strLit textKey ++ (58 :: 32 :: (strLit tx ++
        (44 :: 32 :: (strLit audioKey ++ (58 :: 32 :: (strLit a ++
        [125]))))))))))))))) := by
  simp [jsonDumps, List.append_assoc]

lemma jsonLoads_jsonDumps (p : Payload) (hp : validPayload p) :
    jsonLoads (jsonDumps p) = some p := by
  obtain ⟨ty, lc, tx, ad⟩ := p
  obtain ⟨hty, hlc, htx, had⟩ := hp
  cases ad with
  | none =>
    rw [jsonDumps_shape_none ty lc tx]
    unfold jsonLoads
    rw [dropLit123]
    simp only [Option.some_bind]
    rw [parseKV_correct typeKey ty (by decide) hty _]
    simp only [Option.some_bind]
    rw [dropLit4432]
    simp only [Option.some_bind]
    rw [parseKV_correct langKey lc (by decide) hlc _]
    simp only [Option.some_bind]
    rw [dropLit4432]
    simp only [Option.some_bind]
    rw [parseKV_correct textKey tx (by decide) htx _]
    simp only [Option.some_bind]
    exact parseAudioTail_none ty lc tx
  | some a =>
    have ha : ∀ c ∈ a, isScalar c := had a rfl
    rw [jsonDumps_shape_some ty lc tx a]
    unfold jsonLoads
    rw [dropLit123]
    simp only [Option.some_bind]
    rw [parseKV_correct typeKey ty (by decide) hty _]
    simp only [Option.some_bind]
    rw [dropLit4432]
    simp only [Option.some_bind]
    rw [parseKV_correct langKey lc (by decide) hlc _]
    simp only [Option.some_bind]
    rw [dropLit4432]
    simp only [Option.some_bind]
    rw [parseKV_correct textKey tx (by decide) htx _]
    simp only [Option.some_bind]
    exact parseAudioTail_some ty lc tx a ha

lemma hexDig_lt (d : Nat) (hd : d < 16) : hexDig d < 128 := by
  unfold hexDig
  split <;> omega

lemma toHex4_ascii (n : Nat) : ∀ x ∈ toHex4 n, x < 128 := by
  intro x hx
  simp only [toHex4, List.mem_cons, List.not_mem_nil, or_false] at hx
  rcases hx with rfl | rfl | rfl | rfl <;> exact hexDig_lt _ (by omega)

lemma escapeChar_ascii (c : Nat) : ∀ x ∈ escapeChar c, x < 128 := by
  intro x hx
  unfold escapeChar at hx
  repeat' split at hx
  all_goals
    simp only [List.mem_cons, List.mem_append, List.not_mem_nil,
      or_false] at hx
  all_goals
    first
    | (rcases hx with (rfl | rfl | h) | rfl | rfl | h <;>
        first | omega | exact toHex4_ascii _ _ h)
    | (rcases hx with rfl | rfl | h <;>
        first | omega | exact toHex4_ascii _ _ h)

lemma escapeString_ascii (s : List Nat) : ∀ x ∈ escapeString s, x < 128 := by
  induction s with
  | nil => intro x hx; exact absurd hx (List.not_mem_nil x)
  | cons c cs ih =>
    intro x hx
    rcases List.mem_append.mp hx with h | h
    · exact escapeChar_ascii c x h
    · exact ih x h

lemma strLit_ascii (s : List Nat) : ∀ x ∈ strLit s, x < 128 := by
  intro x hx
  rcases List.mem_cons.mp hx with rfl | h
  · omega
  · rcases List.mem_append.mp h with h2 | h2
    · exact escapeString_ascii s x h2
    · simp only [List.mem_cons, List.not_mem_nil, or_false] at h2
      omega

lemma ascii_append (a b : List Nat) (ha : ∀ x ∈ a, x < 128)
    (hb : ∀ x ∈ b, x < 128) : ∀ x ∈ a ++ b, x < 128 := by
  intro x hx
  rcases List.mem_append.mp hx with h | h
  exacts [ha x h, hb x h]

lemma jsonDumps_ascii (p : Payload) : ∀ x ∈ jsonDumps p, x < 128 := by
  unfold jsonDumps
  cases had : p.audio_data with
  | none =>
    repeat' apply ascii_append
    all_goals first | exact strLit_ascii _ | decide
  | some a =>
    repeat' apply ascii_append
    all_goals first | exact strLit_ascii _ | decide

lemma utf8Encode_ascii (s : List Nat) (h : ∀ c ∈ s, c < 128) :
    utf8Encode s = s := by
  induction s with
  | nil => rfl
  | cons c cs ih =>
    have hc : c < 128 := h c (by simp)
    simp only [utf8Encode, utf8EncodeChar, if_pos hc]
    simp [ih (fun x hx => h x (by simp [hx]))]

lemma utf8DecodeChar_ascii (c : Nat) (hc : c < 128) (r : List Nat) :
    utf8DecodeChar (c :: r) = some (c, r) := by
  simp only [utf8DecodeChar]
  rw [if_pos hc]

lemma utf8DecodeF_step (f b : Nat) (rest : List Nat) (v : Nat)
    (rest1 : List Nat) (h : utf8DecodeChar (b :: rest) = some (v, rest1)) :
    utf8DecodeF (f + 1) (b :: rest) =
      (utf8DecodeF f rest1).map (fun s => v :: s) := by
  simp only [utf8DecodeF]
  rw [h]

lemma utf8DecodeF_ascii (s : List Nat) (h : ∀ c ∈ s, c < 128) :
    ∀ fuel, s.length ≤ fuel → utf8DecodeF fuel s = some s := by
  induction s with
  | nil => intro fuel _; cases fuel <;> rfl
  | cons c cs ih =>
    intro fuel hf
    cases fuel with
    | zero => simp at hf
    | succ f =>
      have hc : c < 128 := h c (by simp)
      rw [utf8DecodeF_step f c cs c cs (utf8DecodeChar_ascii c hc cs)]
      rw [ih (fun x hx => h x (by simp [hx])) f
        (by simp only [List.length_cons] at hf; omega)]
      rfl

lemma utf8Decode_ascii (s : List Nat) (h : ∀ c ∈ s, c < 128) :
    utf8Decode s = some s :=
  utf8DecodeF_ascii s h s.length le_rfl

lemma fromBytesBE_lenBytes4 (n : Nat) (h : n < 4294967296) :
    fromBytesBE [n / 16777216 % 256, n / 65536 % 256, n / 256 % 256,
      n % 256] = n := by
  simp only [fromBytesBE, List.foldl]
  omega

/-- Claim C4: for every payload consisting of unicode text fields
and an optional base64 audio field (whose encoded JSON fits the
4-byte length prefix), encoding it on the language channel as a
4-byte big-endian length prefix followed by the UTF-8 JSON bytes,
then decoding on the receiving side (read the 4-byte big-endian
length, read exactly that many bytes, UTF-8 decode, JSON parse)
yields back the payload exactly. -/
theorem framed_roundtrip (p : Payload) (hp : validPayload p)
    (hlen : (utf8Encode (jsonDumps p)).length < 4294967296) :
    receiveMessage (encodeFrame p) = some p := by
  have hascii := jsonDumps_ascii p
  have henc : utf8Encode (jsonDumps p) = jsonDumps p :=
    utf8Encode_ascii _ hascii
  rw [henc] at hlen
  rw [encodeFrame, henc]
  simp only [lenBytes4, List.cons_append, List.nil_append]
  rw [receiveMessage]
  rw [fromBytesBE_lenBytes4 (jsonDumps p).length hlen]
  rw [if_neg (lt_irrefl _)]
  rw [List.take_length]
  rw [utf8Decode_ascii _ hascii]
  exact jsonLoads_jsonDumps p hp

/-- Witness for C4: an audio payload whose text holds a quote, a
backslash, a newline, a BMP CJK character and a non-BMP emoji
(exercising the surrogate-pair escape), with base64 audio data,
survives the frame round-trip unchanged. -/
theorem framed_roundtrip_witness :
    receiveMessage (encodeFrame ⟨[97, 117, 100, 105, 111], [106, 97],
        [34, 92, 10, 26085, 127773], some [81, 85, 74, 68, 61, 61]⟩) =
      some ⟨[97, 117, 100, 105, 111], [106, 97],
        [34, 92, 10, 26085, 127773], some [81, 85, 74, 68, 61, 61]⟩ :=
  framed_roundtrip _
    ⟨by decide, by decide, by decide, fun a ha => by cases ha; decide⟩
    (by decide)

end MTG
